import Mathlib

/-!
Verification of the chat accessibility help module
(`chatAccessibilityHelp`) and the user-data-profile icon list
(`userDataProfileIcons.ts`) of the vscode repository.

The TypeScript sources are shallowly embedded: pure string assembly is
translated to Lean functions over `String` and `List Char`; the stateful
wiring of `runAccessibilityHelpAction` is translated to a function
producing an explicit trace of effects on the host services, together
with the registered provider record and the effects its `onClose`
callback performs when the overlay closes.
-/

set_option maxRecDepth 100000

namespace VSCode

/-! ### String formatting (`vs/base/common/strings` and `vs/nls`) -/

/-- Numeric value of a list of decimal digit characters, most significant
first, as JavaScript `parseInt` computes it on an all-digit string. -/
def digitsToNat (ds : List Char) : Nat :=
  ds.foldl (fun n c => 10 * n + (c.toNat - Char.toNat ('0'))) 0

/-- Modelled from the spec: the scanner of the repository's `format` helper
(`vs/base/common/strings`, not included in the provided excerpt), which the
spec describes as formatting strings with substitution values.  It replaces
every occurrence of a placeholder `\x7bn\x7d` (`n` a non-empty run of
decimal digits) by the `n`-th substitution argument, keeping out-of-range
placeholders as literal text; replacements are not rescanned.  The first
argument of the scan is the run of digits read so far inside a candidate
placeholder (in reverse order), or `none` when outside a placeholder. -/
def formatGo (args : List String) : Option (List Char) → List Char → List Char
  | none, [] => []
  | some ds, [] => ('\x7b') :: ds.reverse
  | none, c :: rest =>
    if c = ('\x7b') then formatGo args (some []) rest
    else c :: formatGo args none rest
  | some ds, c :: rest =>
    if c.isDigit then formatGo args (some (c :: ds)) rest
    else if c = ('\x7d') then
      if ds.isEmpty then ('\x7b') :: ('\x7d') :: formatGo args none rest
      else
        let idx := digitsToNat ds.reverse
        if idx < args.length then (args.getD idx ("")).data ++ formatGo args none rest
        else ('\x7b') :: ds.reverse ++ ('\x7d') :: formatGo args none rest
    else if c = ('\x7b') then ('\x7b') :: ds.reverse ++ formatGo args (some []) rest
    else ('\x7b') :: ds.reverse ++ c :: formatGo args none rest

/-- Modelled from the spec: `format` of `vs/base/common/strings`.  With no
arguments the value is returned unchanged; otherwise each in-range
placeholder is replaced by the corresponding argument. -/
def format (value : String) (args : List String) : String :=
  if args.length = 0 then value else String.mk (formatGo args none value.data)

/-- Modelled from the spec: `localize` of `vs/nls` (not included in the
provided excerpt), which in the development language returns the given
message with the substitution arguments applied, ignoring the key. -/
def localize (key : String) (message : String) (args : List String) : String :=
  format message args

/-- JavaScript `Array.prototype.join` with a separator. -/
def joinSep (sep : String) : List String → String
  | [] => ("")
  | [a] => a
  | a :: b :: rest => a ++ sep ++ joinSep sep (b :: rest)

/-- Split a character list at every newline character (the lines of
`String.split` by newline); used to speak about the newline-separated
lines of the assembled help text. -/
def splitLines : List Char → List (List Char)
  | [] => [[]]
  | c :: rest =>
    let r := splitLines rest
    if c = ('\n') then [] :: r
    else (c :: r.headD []) :: r.tail

/-- Last newline-separated line of a string. -/
def lastLine (s : String) : String :=
  String.mk ((splitLines s.data).getLastD [])

/-! ### Keybinding service model -/

/-- Modelled from the spec: a resolved keybinding of the host keybinding
service (`IKeybindingService`, an external host-framework service consumed
here), reduced to the one capability the module uses: its display label
`getAriaLabel()`. -/
structure ResolvedKeybinding where
  getAriaLabel : String
  deriving DecidableEq

/-- Modelled from the spec: the host keybinding service, reduced to
`lookupKeybinding`, which resolves a command id to a keybinding or to
nothing. -/
structure KeybindingService where
  lookupKeybinding : String → Option ResolvedKeybinding

/-- JavaScript truthiness of a `string | undefined` value: `undefined` and
the empty string are falsy. -/
def jsTruthy : Option String → Bool
  | none => false
  | some s => !(s == "")

/-- JavaScript string coercion of a `string | undefined` value, as
performed when the value is substituted into a format placeholder. -/
def jsStringOf : Option String → String
  | none => ("undefined")
  | some s => s

/-- The expression `keybindingService.lookupKeybinding(id)?.getAriaLabel()`. -/
def ariaLabelOf (keybindingService : KeybindingService) (commandId : String) : Option String :=
  (keybindingService.lookupKeybinding commandId).map ResolvedKeybinding.getAriaLabel

/-! ### Localized sentence literals of the accessibility help module -/

def chatOverviewText : String :=
  ("The chat view is comprised of an input box and a request/response list. The input box is used to make requests and the list is used to display responses.")

def chatRequestHistoryText : String :=
  ("In the input box, use up and down arrows to navigate your request history. Edit input and use enter or the submit button to run a new request.")

def chatAnnouncementText : String :=
  ("Chat responses will be announced as they come in. A response will indicate the number of code blocks, if any, and then the rest of the response.")

def chatFocusMsgText : String :=
  ("The Focus Chat command ({0}) focuses the chat request/response list, which can be navigated with up and down arrows.")

def chatFocusNoKbText : String :=
  ("The Focus Chat List command focuses the chat request/response list, which can be navigated with UpArrow/DownArrow and is currently not triggerable by a keybinding.")

def chatFocusInputMsgText : String :=
  ("The Focus Chat Input command ({0}) focuses the input box for chat requests.")

def chatFocusInputNoKbText : String :=
  ("Focus Chat Input command focuses the input box for chat requests and is currently not triggerable by a keybinding.")

def chatNextCodeBlockMsgText : String :=
  ("The Chat: Next Code Block command ({0}) focuses the next code block within a response.")

def chatNextCodeBlockNoKbText : String :=
  ("The Chat: Next Code Block command focuses the next code block within a response and is currently not triggerable by a keybinding.")

def chatClearMsgText : String :=
  ("The Chat Clear command ({0}) clears the request/response list.")

def chatClearNoKbText : String :=
  ("The Chat Clear command clears the request/response list and is currently not triggerable by a keybinding.")

def inlineChatOverviewText : String :=
  ("Inline chat occurs within a code editor and takes into account the current selection. It is useful for making changes to the current editor. For example, fixing diagnostics, documenting or refactoring code. Keep in mind that AI generated code may be incorrect.")

def inlineChatAccessText : String :=
  ("It can be activated via code actions or directly using the command: Inline Chat: Start Code Chat ({0}).")

def inlineChatRequestHistoryText : String :=
  ("In the input box, use {0} and {1} to navigate your request history. Edit input and use enter or the submit button to run a new request.")

def inlineChatContextActionsText : String :=
  ("Context menu actions may run a request prefixed with /fix or /explain. Type / to discover more ready-made commands.")

def inlineChatFixText : String :=
  ("When a request is prefixed with /fix, a response will indicate the problem with the current code. A diff editor will be rendered and can be reached by tabbing.")

def inlineChatDiffMsgText : String :=
  ("Once in the diff editor, enter review mode with ({0}). Use up and down arrows to navigate lines with the proposed changes.")

def inlineChatDiffNoKbText : String :=
  ("Tab again to enter the Diff editor with the changes and enter review mode with the Go to Next Difference Command. Use Up/DownArrow to navigate lines with the proposed changes.")

def inlineChatExplainText : String :=
  ("When a request is prefixed with /explain, a response will explain the code in the current selection and the chat view will be focused.")

def inlineChatToolbarText : String :=
  ("Use tab to reach conditional parts like commands, status, message responses and more.")

def chatAudioCuesText : String :=
  ("Audio cues can be changed via settings with a prefix of audioCues.chat. By default, if a request takes more than 5 seconds, you will hear an audio cue indicating that progress is still occurring.")

/-! ### `getAccessibilityHelpText` -/

/-- The two-valued mode flag of the module. -/
inductive ChatType
  | panelChat
  | inlineChat
  deriving DecidableEq

/-- The function `descriptionForCommand` of the source: when the
keybinding service resolves the command id, format the message with the
keybinding's aria label, otherwise format the fallback message with the
command id itself. -/
def descriptionForCommand (commandId : String) (msg : String) (noKbMsg : String)
    (keybindingService : KeybindingService) : String :=
  match keybindingService.lookupKeybinding commandId with
  | some kb => format msg [kb.getAriaLabel]
  | none => format noKbMsg [commandId]

/-- The `content` array assembled by `getAccessibilityHelpText`, in source
order.  In the inlineChat request-history branch the source calls
`content.push(localize(key, template), upHistoryKeybinding,
downHistoryKeybinding)`: the two labels are arguments of `push`, not of
`localize`, so three separate entries are appended, the first being the
unformatted template. -/
def getAccessibilityHelpTextContent (keybindingService : KeybindingService)
    (type : ChatType) : List String :=
  (match type with
   | ChatType.panelChat =>
     [ localize ("chat.overview") chatOverviewText []
     , localize ("chat.requestHistory") chatRequestHistoryText []
     , localize ("chat.announcement") chatAnnouncementText []
     , descriptionForCommand ("chat.action.focus")
         (localize ("workbench.action.chat.focus") chatFocusMsgText [])
         (localize ("workbench.action.chat.focusNoKb") chatFocusNoKbText []) keybindingService
     , descriptionForCommand ("workbench.action.chat.focusInput")
         (localize ("workbench.action.chat.focusInput") chatFocusInputMsgText [])
         (localize ("workbench.action.interactiveSession.focusInputNoKb") chatFocusInputNoKbText []) keybindingService
     , descriptionForCommand ("workbench.action.chat.nextCodeBlock")
         (localize ("workbench.action.chat.nextCodeBlock") chatNextCodeBlockMsgText [])
         (localize ("workbench.action.chat.nextCodeBlockNoKb") chatNextCodeBlockNoKbText []) keybindingService
     , descriptionForCommand ("workbench.action.chat.clear")
         (localize ("workbench.action.chat.clear") chatClearMsgText [])
         (localize ("workbench.action.chat.clearNoKb") chatClearNoKbText []) keybindingService ]
   | ChatType.inlineChat =>
     [ localize ("inlineChat.overview") inlineChatOverviewText []
     , localize ("inlineChat.access") inlineChatAccessText
         [jsStringOf (ariaLabelOf keybindingService ("inlineChat.start"))] ]
     ++ (if jsTruthy (ariaLabelOf keybindingService ("inlineChat.previousFromHistory"))
            && jsTruthy (ariaLabelOf keybindingService ("inlineChat.nextFromHistory")) then
          [ localize ("inlineChat.requestHistory") inlineChatRequestHistoryText []
          , jsStringOf (ariaLabelOf keybindingService ("inlineChat.previousFromHistory"))
          , jsStringOf (ariaLabelOf keybindingService ("inlineChat.nextFromHistory")) ]
        else [])
     ++ [ localize ("inlineChat.contextActions") inlineChatContextActionsText []
        , localize ("inlineChat.fix") inlineChatFixText []
        , if jsTruthy (ariaLabelOf keybindingService ("editor.action.diffReview.next")) then
            localize ("inlineChat.diff") inlineChatDiffMsgText
              [jsStringOf (ariaLabelOf keybindingService ("editor.action.diffReview.next"))]
          else localize ("inlineChat.diffNoKb") inlineChatDiffNoKbText []
        , localize ("inlineChat.explain") inlineChatExplainText []
        , localize ("inlineChat.toolbar") inlineChatToolbarText [] ])
  ++ [localize ("chat.audioCues") chatAudioCuesText []]

/-- The function `getAccessibilityHelpText` of the source:
`content.join` with a newline separator. -/
def getAccessibilityHelpText (keybindingService : KeybindingService) (type : ChatType) : String :=
  joinSep ("\n") (getAccessibilityHelpTextContent keybindingService type)

/-! ### `runAccessibilityHelpAction` -/

/-- Modelled from the spec: an editor position (`ICodeEditor.getPosition`). -/
structure Position where
  lineNumber : Nat
  column : Nat
  deriving DecidableEq

/-- Modelled from the spec: the slice of the host `ICodeEditor` interface
the module reads.  `modelUri` is `getModel()?.uri`; `domNode` is
`withNullAsUndefined(getDomNode())`; `position` is `getPosition()`. -/
structure CodeEditor where
  modelUri : Option String
  domNode : Option String
  position : Option Position
  deriving DecidableEq

/-- Modelled from the spec: a chat widget, of which the module only reads
the input editor. -/
structure ChatWidget where
  inputEditor : CodeEditor
  deriving DecidableEq

/-- Modelled from the spec: the host `IChatWidgetService`, reduced to its
`lastFocusedWidget` property. -/
structure ChatWidgetService where
  lastFocusedWidget : Option ChatWidget
  deriving DecidableEq

/-- Observable actions `runAccessibilityHelpAction` and the `onClose`
callback of its registered provider perform on the host services and
editors. -/
inductive Effect
  | getSupportedActions
  | registerProvider (id : ChatType)
  | showView (id : ChatType)
  | setPosition (p : Position)
  | focusInput
  | focusInlineChatController
  | disposeProvider (id : ChatType)
  deriving DecidableEq

/-- Whether an effect is a provider registration. -/
def Effect.isRegisterProvider : Effect → Bool
  | Effect.registerProvider _ => true
  | _ => false

/-- Whether an effect is a provider disposal. -/
def Effect.isDisposeProvider : Effect → Bool
  | Effect.disposeProvider _ => true
  | _ => false

/-- The provider record `runAccessibilityHelpAction` registers with the
accessible-view service: its id, its `provideContent` result, its aria
label, and the effects its `onClose` callback performs when the overlay
closes. -/
structure ProviderRecord where
  id : ChatType
  provideContent : String
  ariaLabel : String
  onCloseEffects : List Effect
  deriving DecidableEq

/-- Result of one call of `runAccessibilityHelpAction`: the effects
performed during the call and the provider it registered, if any. -/
structure RunResult where
  runEffects : List Effect
  provider : Option ProviderRecord
  deriving DecidableEq

/-- The expression choosing the input editor:
`type === 'panelChat' ? widgetService.lastFocusedWidget?.inputEditor : editor`. -/
def inputEditorFor (widgetService : ChatWidgetService) (editor : CodeEditor) :
    ChatType → Option CodeEditor
  | ChatType.panelChat => widgetService.lastFocusedWidget.map ChatWidget.inputEditor
  | ChatType.inlineChat => some editor

/-- Effects of the `onClose` callback of the registered provider: for
panelChat with a cached position, restore the position and focus the input
editor; for inlineChat, focus the inline chat controller when present;
in every case, dispose the registered provider last. -/
def onCloseRun (type : ChatType) (cachedPosition : Option Position)
    (inlineChatControllerPresent : Bool) : List Effect :=
  (match type, cachedPosition with
   | ChatType.panelChat, some p => [Effect.setPosition p, Effect.focusInput]
   | ChatType.panelChat, none => []
   | ChatType.inlineChat, _ =>
     if inlineChatControllerPresent then [Effect.focusInlineChatController] else [])
  ++ [Effect.disposeProvider type]

/-- The function `runAccessibilityHelpAction` of the source.  The guards
are translated faithfully: a missing input editor, a missing model uri on
the passed editor, or a missing DOM node on the input editor each return
early with no effects and no registered provider.  Otherwise the cached
position is read, `getSupportedActions` is called, the help text is
assembled, the provider is registered, and the view is shown.
`inlineChatControllerPresent` models whether
`InlineChatController.get(editor)` is defined in the `onClose` callback. -/
def runAccessibilityHelpAction (widgetService : ChatWidgetService)
    (keybindingService : KeybindingService) (editor : CodeEditor) (type : ChatType)
    (inlineChatControllerPresent : Bool) : RunResult :=
  match inputEditorFor widgetService editor type, editor.modelUri with
  | some inputEditor, some _ =>
    (match inputEditor.domNode with
     | some _ =>
       let cachedPosition := inputEditor.position
       let helpText := getAccessibilityHelpText keybindingService type
       let provider : ProviderRecord :=
         { id := type
           provideContent := helpText
           ariaLabel :=
             match type with
             | ChatType.panelChat => localize ("chat-help-label") ("Chat accessibility help") []
             | ChatType.inlineChat => localize ("inline-chat-label") ("Inline chat accessibility help") []
           onCloseEffects := onCloseRun type cachedPosition inlineChatControllerPresent }
       { runEffects := [Effect.getSupportedActions, Effect.registerProvider type, Effect.showView type]
         provider := some provider }
     | none => { runEffects := [], provider := none })
  | _, _ => { runEffects := [], provider := none }

/-! ### Icon list (`userDataProfileIcons.ts`) -/

/-- Modelled from the spec: an icon identifier of the host `Codicon`
enumeration (`vs/base/common/codicons`, not included in the provided
excerpt).  The spec describes the persisted entity as an ordered collection
of icon identifiers; each referenced `Codicon` constant is represented by
its identifier string. -/
structure Codicon where
  id : String
  deriving DecidableEq

namespace Codicon

def settingsGear : Codicon := ⟨("settings-gear")⟩
def vm : Codicon := ⟨("vm")⟩
def server : Codicon := ⟨("server")⟩
def recordKeys : Codicon := ⟨("record-keys")⟩
def deviceMobile : Codicon := ⟨("device-mobile")⟩
def watch : Codicon := ⟨("watch")⟩
def ruby : Codicon := ⟨("ruby")⟩
def code : Codicon := ⟨("code")⟩
def window : Codicon := ⟨("window")⟩
def library : Codicon := ⟨("library")⟩
def extensions : Codicon := ⟨("extensions")⟩
def terminal : Codicon := ⟨("terminal")⟩
def beaker : Codicon := ⟨("beaker")⟩
def package : Codicon := ⟨("package")⟩
def cloud : Codicon := ⟨("cloud")⟩
def book : Codicon := ⟨("book")⟩
def globe : Codicon := ⟨("globe")⟩
def database : Codicon := ⟨("database")⟩
def notebook : Codicon := ⟨("notebook")⟩
def gift : Codicon := ⟨("gift")⟩
def send : Codicon := ⟨("send")⟩
def briefcase : Codicon := ⟨("briefcase")⟩
def megaphone : Codicon := ⟨("megaphone")⟩
def comment : Codicon := ⟨("comment")⟩
def telescope : Codicon := ⟨("telescope")⟩
def creditCard : Codicon := ⟨("credit-card")⟩
def map : Codicon := ⟨("map")⟩
def deviceCameraVideo : Codicon := ⟨("device-camera-video")⟩
def unmute : Codicon := ⟨("unmute")⟩
def law : Codicon := ⟨("law")⟩
def graphLine : Codicon := ⟨("graph-line")⟩
def heart : Codicon := ⟨("heart")⟩
def home : Codicon := ⟨("home")⟩
def inbox : Codicon := ⟨("inbox")⟩
def mortarBoard : Codicon := ⟨("mortar-board")⟩
def rocket : Codicon := ⟨("rocket")⟩
def magnet : Codicon := ⟨("magnet")⟩
def lock : Codicon := ⟨("lock")⟩
def milestone : Codicon := ⟨("milestone")⟩
def tag : Codicon := ⟨("tag")⟩
def pulse : Codicon := ⟨("pulse")⟩
def radioTower : Codicon := ⟨("radio-tower")⟩
def smiley : Codicon := ⟨("smiley")⟩
def symbolEvent : Codicon := ⟨("symbol-event")⟩
def squirrel : Codicon := ⟨("squirrel")⟩
def symbolColor : Codicon := ⟨("symbol-color")⟩
def mail : Codicon := ⟨("mail")⟩
def key : Codicon := ⟨("key")⟩
def pieChart : Codicon := ⟨("pie-chart")⟩
def organization : Codicon := ⟨("organization")⟩
def preview : Codicon := ⟨("preview")⟩
def wand : Codicon := ⟨("wand")⟩
def starEmpty : Codicon := ⟨("star-empty")⟩
def lightbulb : Codicon := ⟨("lightbulb")⟩
def symbolRuler : Codicon := ⟨("symbol-ruler")⟩
def dashboard : Codicon := ⟨("dashboard")⟩
def calendar : Codicon := ⟨("calendar")⟩
def shield : Codicon := ⟨("shield")⟩
def flame : Codicon := ⟨("flame")⟩
def compass : Codicon := ⟨("compass")⟩
def paintcan : Codicon := ⟨("paintcan")⟩
def archive : Codicon := ⟨("archive")⟩
def mic : Codicon := ⟨("mic")⟩

end Codicon

/-- The designated default icon of `userDataProfileIcons.ts`. -/
def DEFAULT_ICON : Codicon := Codicon.settingsGear

/-- The static list `ICONS` of `userDataProfileIcons.ts`, in source order. -/
def ICONS : List Codicon :=
  [ DEFAULT_ICON
  , Codicon.vm
  , Codicon.server
  , Codicon.recordKeys
  , Codicon.deviceMobile
  , Codicon.watch
  , Codicon.ruby
  , Codicon.code
  , Codicon.window
  , Codicon.library
  , Codicon.extensions
  , Codicon.terminal
  , Codicon.beaker
  , Codicon.package
  , Codicon.cloud
  , Codicon.book
  , Codicon.globe
  , Codicon.database
  , Codicon.notebook
  , Codicon.gift
  , Codicon.send
  , Codicon.briefcase
  , Codicon.megaphone
  , Codicon.comment
  , Codicon.telescope
  , Codicon.creditCard
  , Codicon.map
  , Codicon.deviceCameraVideo
  , Codicon.unmute
  , Codicon.law
  , Codicon.graphLine
  , Codicon.heart
  , Codicon.home
  , Codicon.inbox
  , Codicon.mortarBoard
  , Codicon.rocket
  , Codicon.magnet
  , Codicon.lock
  , Codicon.milestone
  , Codicon.tag
  , Codicon.pulse
  , Codicon.radioTower
  , Codicon.smiley
  , Codicon.symbolEvent
  , Codicon.squirrel
  , Codicon.symbolColor
  , Codicon.mail
  , Codicon.key
  , Codicon.pieChart
  , Codicon.organization
  , Codicon.preview
  , Codicon.wand
  , Codicon.starEmpty
  , Codicon.lightbulb
  , Codicon.symbolRuler
  , Codicon.dashboard
  , Codicon.calendar
  , Codicon.shield
  , Codicon.flame
  , Codicon.compass
  , Codicon.paintcan
  , Codicon.archive
  , Codicon.mic ]

/-! ### System state affected by the effects -/

/-- The state of the host system the provided code can observe or affect:
the icon list of `userDataProfileIcons.ts` plus the accessible-view
registrations, the shown views, and the input editor's position and focus
state. -/
structure SystemState where
  icons : List Codicon
  registeredProviders : List ChatType
  shownTypes : List ChatType
  editorPosition : Option Position
  editorFocused : Bool
  inlineChatFocused : Bool
  deriving DecidableEq

/-- Interpretation of a single effect as a state transition. -/
def applyEffect (s : SystemState) : Effect → SystemState
  | Effect.getSupportedActions => s
  | Effect.registerProvider t => { s with registeredProviders := s.registeredProviders ++ [t] }
  | Effect.showView t => { s with shownTypes := s.shownTypes ++ [t] }
  | Effect.setPosition p => { s with editorPosition := some p }
  | Effect.focusInput => { s with editorFocused := true }
  | Effect.focusInlineChatController => { s with inlineChatFocused := true }
  | Effect.disposeProvider t => { s with registeredProviders := s.registeredProviders.erase t }

/-- Interpretation of a trace of effects. -/
def applyTrace (s : SystemState) (l : List Effect) : SystemState :=
  l.foldl applyEffect s

/-- The state right after process-wide static initialization: the icon
list is created from the literal enumeration; nothing is registered,
shown, or focused. -/
def initialSystemState : SystemState :=
  { icons := ICONS
    registeredProviders := []
    shownTypes := []
    editorPosition := none
    editorFocused := false
    inlineChatFocused := false }

/-! ### Sample service and editor instances used by concrete evaluations -/

/-- A keybinding service that resolves no command. -/
def kbServiceEmpty : KeybindingService := ⟨fun _ => none⟩

/-- A keybinding service resolving exactly the two inline-chat history
commands. -/
def kbServiceInlineHistory : KeybindingService :=
  ⟨fun id =>
    if id = ("inlineChat.previousFromHistory") then some ⟨("Alt+UpArrow")⟩
    else if id = ("inlineChat.nextFromHistory") then some ⟨("Alt+DownArrow")⟩
    else none⟩

/-- A keybinding service whose lookup function is written differently from
`kbServiceEmpty` but returns the same result on every command id. -/
def kbServiceIfSame : KeybindingService :=
  ⟨fun id => if id = ("inlineChat.start") then none else none⟩

/-- A keybinding service resolving exactly `chat.action.focus`. -/
def kbServiceFocusOnly : KeybindingService :=
  ⟨fun id => if id = ("chat.action.focus") then some ⟨("Ctrl+L")⟩ else none⟩

/-- An editor with no model, no DOM node and no position. -/
def editorNoModel : CodeEditor :=
  { modelUri := none, domNode := none, position := none }

/-- An editor with a model uri, a DOM node and a position. -/
def editorReady : CodeEditor :=
  { modelUri := some ("file:sample"), domNode := some ("div"), position := some ⟨1, 1⟩ }

/-- A chat widget service with no last focused widget. -/
def widgetServiceNone : ChatWidgetService := ⟨none⟩

/-- The provider record registered by a successful inline-chat run against
`kbServiceEmpty` and `editorReady`. -/
def providerInlineSample : ProviderRecord :=
  { id := ChatType.inlineChat
    provideContent := getAccessibilityHelpText kbServiceEmpty ChatType.inlineChat
    ariaLabel := localize ("inline-chat-label") ("Inline chat accessibility help") []
    onCloseEffects := onCloseRun ChatType.inlineChat (some ⟨1, 1⟩) true }

/-! ### Helper lemmas -/

theorem string_mk_data (s : String) : String.mk s.data = s := rfl

theorem newline_data : ("\n").data = [('\n')] := rfl

theorem localize_args_nil (key message : String) : localize key message [] = message := rfl

theorem formatGo_none_append (args : List String) (xs ys : List Char)
    (h : ('\x7b') ∉ xs) : formatGo args none (xs ++ ys) = xs ++ formatGo args none ys := by
  induction xs with
  | nil => rfl
  | cons c rest ih =>
    have hc : c ≠ ('\x7b') := by
      intro hcc
      exact h (by simp [hcc])
    have hrest : ('\x7b') ∉ rest := fun hm => h (List.mem_cons_of_mem c hm)
    simp [formatGo, hc, ih hrest]

theorem formatGo_none_eq_self (args : List String) (xs : List Char)
    (h : ('\x7b') ∉ xs) : formatGo args none xs = xs := by
  have h2 := formatGo_none_append args xs [] h
  simpa [formatGo] using h2

theorem formatGo_placeholder_zero (args : List String) (ys : List Char)
    (h : 0 < args.length) :
    formatGo args none (('\x7b') :: ('0') :: ('\x7d') :: ys)
      = (args.getD 0 ("")).data ++ formatGo args none ys := by
  simp [formatGo, digitsToNat, h]

theorem format_substitution (a b x : String) (ha : ('\x7b') ∉ a.data)
    (hb : ('\x7b') ∉ b.data) :
    format (a ++ ("\x7b0\x7d") ++ b) [x] = a ++ x ++ b := by
  have hdata : (a ++ ("\x7b0\x7d") ++ b).data
      = a.data ++ (('\x7b') :: ('0') :: ('\x7d') :: b.data) := by
    simp [String.data_append]
  unfold format
  rw [if_neg (by simp)]
  rw [hdata, formatGo_none_append _ _ _ ha, formatGo_placeholder_zero _ _ (by simp),
    formatGo_none_eq_self _ _ hb]
  rw [← string_mk_data (a ++ x ++ b)]
  congr 1
  simp [String.data_append]

theorem splitLines_ne_nil (l : List Char) : splitLines l ≠ [] := by
  cases l with
  | nil => simp [splitLines]
  | cons c rest =>
    dsimp [splitLines]
    split <;> simp

theorem splitLines_append_newline (xs ys : List Char) :
    splitLines (xs ++ ('\n') :: ys) = splitLines xs ++ splitLines ys := by
  induction xs with
  | nil => simp [splitLines]
  | cons c rest ih =>
    by_cases hc : c = ('\n')
    · subst hc
      simp [splitLines, ih]
    · obtain ⟨h0, t0, hrest⟩ : ∃ h0 t0, splitLines rest = h0 :: t0 := by
        rcases hsl : splitLines rest with _ | ⟨h0, t0⟩
        · exact absurd hsl (splitLines_ne_nil rest)
        · exact ⟨h0, t0, rfl⟩
      simp [splitLines, hc, ih, hrest]

theorem splitLines_of_not_mem (l : List Char) (h : ('\n') ∉ l) : splitLines l = [l] := by
  induction l with
  | nil => rfl
  | cons c rest ih =>
    have hc : c ≠ ('\n') := by
      intro hcc
      exact h (by simp [hcc])
    have hr : ('\n') ∉ rest := fun hm => h (List.mem_cons_of_mem c hm)
    simp [splitLines, hc, ih hr]

theorem list_getLastD_default_irrel {α : Type} (l : List α) (h : l ≠ []) (d d' : α) :
    l.getLastD d = l.getLastD d' := by
  cases l with
  | nil => contradiction
  | cons b t => rfl

theorem list_getLastD_append {α : Type} (l1 l2 : List α) (h : l2 ≠ []) :
    ∀ d, (l1 ++ l2).getLastD d = l2.getLastD d := by
  induction l1 with
  | nil => intro d; rfl
  | cons a t ih =>
    intro d
    rw [List.cons_append, List.getLastD_cons, ih a, list_getLastD_default_irrel l2 h a d]

theorem joinSep_cons_of_ne_nil (sep a : String) (l : List String) (h : l ≠ []) :
    joinSep sep (a :: l) = a ++ sep ++ joinSep sep l := by
  cases l with
  | nil => contradiction
  | cons b t => rfl

theorem lastLine_joinSep (l : List String) (c : String) (hc : ('\n') ∉ c.data) :
    lastLine (joinSep ("\n") (l ++ [c])) = c := by
  have key : (splitLines ((joinSep ("\n") (l ++ [c])).data)).getLastD [] = c.data := by
    induction l with
    | nil =>
      show (splitLines ((joinSep ("\n") [c]).data)).getLastD [] = c.data
      rw [show joinSep ("\n") [c] = c from rfl, splitLines_of_not_mem c.data hc]
      rfl
    | cons a t ih =>
      have hne : t ++ [c] ≠ [] := by simp
      rw [List.cons_append, joinSep_cons_of_ne_nil _ _ _ hne]
      have hdata : ((a ++ ("\n")) ++ joinSep ("\n") (t ++ [c])).data
          = a.data ++ (('\n') :: (joinSep ("\n") (t ++ [c])).data) := by
        simp [String.data_append, newline_data]
      rw [hdata, splitLines_append_newline,
        list_getLastD_append _ _ (splitLines_ne_nil _), ih]
  unfold lastLine
  rw [key]

theorem append_ne_of_char {a t : String} (b : String) (i : Nat) (hi : i < a.data.length)
    (hne : a.data[i]? ≠ t.data[i]?) (x : String) : a ++ x ++ b ≠ t := by
  intro h
  have h1 : (a ++ x ++ b).data = (a.data ++ x.data) ++ b.data := by
    simp [String.data_append]
  have hi2 : i < (a.data ++ x.data).length := by
    simp only [List.length_append]
    omega
  have h2 : (a ++ x ++ b).data[i]? = a.data[i]? := by
    rw [h1, List.getElem?_append_left hi2, List.getElem?_append_left hi]
  exact hne (h2.symm.trans (congrArg (fun s : String => s.data[i]?) h))

theorem runAccessibilityHelpAction_cases (widgetService : ChatWidgetService)
    (keybindingService : KeybindingService) (editor : CodeEditor) (type : ChatType)
    (ctrl : Bool) :
    runAccessibilityHelpAction widgetService keybindingService editor type ctrl
      = { runEffects := [], provider := none } ∨
    (∃ ie, inputEditorFor widgetService editor type = some ie ∧
      runAccessibilityHelpAction widgetService keybindingService editor type ctrl
        = { runEffects := [Effect.getSupportedActions, Effect.registerProvider type,
              Effect.showView type]
            provider := some
              { id := type
                provideContent := getAccessibilityHelpText keybindingService type
                ariaLabel :=
                  match type with
                  | ChatType.panelChat => localize ("chat-help-label") ("Chat accessibility help") []
                  | ChatType.inlineChat => localize ("inline-chat-label") ("Inline chat accessibility help") []
                onCloseEffects := onCloseRun type ie.position ctrl } }) := by
  unfold runAccessibilityHelpAction
  rcases hi : inputEditorFor widgetService editor type with _ | ie <;>
    rcases hm : editor.modelUri with _ | u
  · exact Or.inl rfl
  · exact Or.inl rfl
  · exact Or.inl rfl
  · rcases ie with ⟨imu, idn, ipos⟩
    rcases idn with _ | d
    · exact Or.inl rfl
    · exact Or.inr ⟨⟨imu, some d, ipos⟩, rfl, rfl⟩

theorem onCloseRun_filter_dispose (t : ChatType) (pos : Option Position) (ctrl : Bool) :
    (onCloseRun t pos ctrl).filter Effect.isDisposeProvider = [Effect.disposeProvider t] := by
  rcases t <;> rcases pos <;> rcases ctrl <;>
    simp [onCloseRun, Effect.isDisposeProvider, List.filter]

theorem access_line_ne_requestHistory (x : String) :
    localize ("inlineChat.access") inlineChatAccessText [x] ≠ inlineChatRequestHistoryText := by
  have hsplit : inlineChatAccessText
      = ("It can be activated via code actions or directly using the command: Inline Chat: Start Code Chat (")
        ++ ("\x7b0\x7d") ++ (").") := by decide
  show format inlineChatAccessText [x] ≠ inlineChatRequestHistoryText
  rw [hsplit, format_substitution _ _ _ (by decide) (by decide)]
  exact append_ne_of_char (").") 1 (by decide) (by decide) x

theorem diff_line_ne_requestHistory (x : String) :
    localize ("inlineChat.diff") inlineChatDiffMsgText [x] ≠ inlineChatRequestHistoryText := by
  have hsplit : inlineChatDiffMsgText
      = ("Once in the diff editor, enter review mode with (") ++ ("\x7b0\x7d")
        ++ ("). Use up and down arrows to navigate lines with the proposed changes.") := by decide
  show format inlineChatDiffMsgText [x] ≠ inlineChatRequestHistoryText
  rw [hsplit, format_substitution _ _ _ (by decide) (by decide)]
  exact append_ne_of_char _ 0 (by decide) (by decide) x

theorem inlineChat_content_of_no_history (kb : KeybindingService)
    (h : (jsTruthy (ariaLabelOf kb ("inlineChat.previousFromHistory"))
        && jsTruthy (ariaLabelOf kb ("inlineChat.nextFromHistory"))) = false) :
    getAccessibilityHelpTextContent kb ChatType.inlineChat =
      [ inlineChatOverviewText
      , localize ("inlineChat.access") inlineChatAccessText
          [jsStringOf (ariaLabelOf kb ("inlineChat.start"))]
      , inlineChatContextActionsText
      , inlineChatFixText
      , (if jsTruthy (ariaLabelOf kb ("editor.action.diffReview.next")) then
           localize ("inlineChat.diff") inlineChatDiffMsgText
             [jsStringOf (ariaLabelOf kb ("editor.action.diffReview.next"))]
         else inlineChatDiffNoKbText)
      , inlineChatExplainText
      , inlineChatToolbarText
      , chatAudioCuesText ] := by
  unfold getAccessibilityHelpTextContent
  rw [h]
  simp [localize_args_nil]

/-! ### Claims -/

/-- C1: evaluation of the code at the failing input.  With a keybinding
service that resolves both history commands, the content assembled for
type inlineChat contains the request-history template with its literal
placeholders unsubstituted, plus the two labels as separate entries, and
does not contain the sentence with the labels substituted; the intended
substitution result would have been produced had the labels been passed to
`localize` instead of `push`. -/
theorem requestHistory_placeholders_not_substituted :
    inlineChatRequestHistoryText
      ∈ getAccessibilityHelpTextContent kbServiceInlineHistory ChatType.inlineChat ∧
    ("Alt+UpArrow") ∈ getAccessibilityHelpTextContent kbServiceInlineHistory ChatType.inlineChat ∧
    ("Alt+DownArrow") ∈ getAccessibilityHelpTextContent kbServiceInlineHistory ChatType.inlineChat ∧
    ("In the input box, use Alt+UpArrow and Alt+DownArrow to navigate your request history. Edit input and use enter or the submit button to run a new request.")
      ∉ getAccessibilityHelpTextContent kbServiceInlineHistory ChatType.inlineChat ∧
    localize ("inlineChat.requestHistory") inlineChatRequestHistoryText
        [("Alt+UpArrow"), ("Alt+DownArrow")]
      = ("In the input box, use Alt+UpArrow and Alt+DownArrow to navigate your request history. Edit input and use enter or the submit button to run a new request.") := by
  decide

/-- C2: when the chosen input editor is absent, the passed editor has no
model uri, or the input editor has no DOM node, `runAccessibilityHelpAction`
returns early: it performs no effect and registers no provider (so nothing
is shown and the input editor's position and focus are untouched). -/
theorem runAccessibilityHelpAction_early_return
    (widgetService : ChatWidgetService) (keybindingService : KeybindingService)
    (editor : CodeEditor) (type : ChatType) (ctrl : Bool)
    (h : inputEditorFor widgetService editor type = none ∨ editor.modelUri = none ∨
      (∃ ie, inputEditorFor widgetService editor type = some ie ∧ ie.domNode = none)) :
    runAccessibilityHelpAction widgetService keybindingService editor type ctrl
      = { runEffects := [], provider := none } := by
  rcases h with h | h | ⟨ie, h1, h2⟩
  · rcases hm : editor.modelUri with _ | u <;>
      simp [runAccessibilityHelpAction, h, hm]
  · rcases hi : inputEditorFor widgetService editor type with _ | ie <;>
      simp [runAccessibilityHelpAction, h, hi]
  · rcases hm : editor.modelUri with _ | u <;>
      simp [runAccessibilityHelpAction, h1, h2, hm]

/-- C2 witness: a panelChat run with no focused widget and no model uri
returns early with no effects. -/
theorem runAccessibilityHelpAction_early_return_witness :
    runAccessibilityHelpAction widgetServiceNone kbServiceEmpty editorNoModel
      ChatType.panelChat false = { runEffects := [], provider := none } :=
  runAccessibilityHelpAction_early_return widgetServiceNone kbServiceEmpty editorNoModel
    ChatType.panelChat false (Or.inl rfl)

/-- C3: whenever `runAccessibilityHelpAction` registers a provider (for
either type value), the provider's id is the run's type, exactly one
provider registration happens during the run, and the `onClose` callback
disposes exactly that one provider. -/
theorem runAccessibilityHelpAction_onClose_disposes_registered
    (widgetService : ChatWidgetService) (keybindingService : KeybindingService)
    (editor : CodeEditor) (type : ChatType) (ctrl : Bool) (p : ProviderRecord)
    (h : (runAccessibilityHelpAction widgetService keybindingService editor type ctrl).provider
      = some p) :
    p.id = type ∧
    (runAccessibilityHelpAction widgetService keybindingService editor type ctrl).runEffects.filter
      Effect.isRegisterProvider = [Effect.registerProvider type] ∧
    p.onCloseEffects.filter Effect.isDisposeProvider = [Effect.disposeProvider type] := by
  rcases runAccessibilityHelpAction_cases widgetService keybindingService editor type ctrl with
    hcase | ⟨ie, hie, hcase⟩
  · rw [hcase] at h
    simp at h
  · rw [hcase] at h ⊢
    simp only [Option.some.injEq] at h
    subst h
    refine ⟨rfl, ?_, ?_⟩
    · simp [Effect.isRegisterProvider, List.filter]
    · exact onCloseRun_filter_dispose type ie.position ctrl

/-- C3 witness: a successful inlineChat run registers the sample provider,
whose close effects dispose exactly that provider. -/
theorem runAccessibilityHelpAction_onClose_disposes_registered_witness :
    providerInlineSample.id = ChatType.inlineChat ∧
    (runAccessibilityHelpAction widgetServiceNone kbServiceEmpty editorReady
      ChatType.inlineChat true).runEffects.filter Effect.isRegisterProvider
      = [Effect.registerProvider ChatType.inlineChat] ∧
    providerInlineSample.onCloseEffects.filter Effect.isDisposeProvider
      = [Effect.disposeProvider ChatType.inlineChat] :=
  runAccessibilityHelpAction_onClose_disposes_registered widgetServiceNone kbServiceEmpty
    editorReady ChatType.inlineChat true providerInlineSample rfl

/-- C4: for every command id, `descriptionForCommand` returns the
with-keybinding message with the keybinding's aria label substituted for
the placeholder exactly when the keybinding service resolves the command,
and otherwise the no-keybinding message with the command id substituted
for the placeholder. -/
theorem descriptionForCommand_keybinding_substitution
    (keybindingService : KeybindingService) (commandId : String) (a b c d : String)
    (ha : ('\x7b') ∉ a.data) (hb : ('\x7b') ∉ b.data)
    (hc : ('\x7b') ∉ c.data) (hd : ('\x7b') ∉ d.data) :
    (∀ kb : ResolvedKeybinding, keybindingService.lookupKeybinding commandId = some kb →
      descriptionForCommand commandId (a ++ ("\x7b0\x7d") ++ b) (c ++ ("\x7b0\x7d") ++ d)
        keybindingService = a ++ kb.getAriaLabel ++ b) ∧
    (keybindingService.lookupKeybinding commandId = none →
      descriptionForCommand commandId (a ++ ("\x7b0\x7d") ++ b) (c ++ ("\x7b0\x7d") ++ d)
        keybindingService = c ++ commandId ++ d) := by
  constructor
  · intro kb hkb
    unfold descriptionForCommand
    rw [hkb]
    exact format_substitution a b kb.getAriaLabel ha hb
  · intro hn
    unfold descriptionForCommand
    rw [hn]
    exact format_substitution c d commandId hc hd

/-- C4 witness: a resolved command yields the message with the label
substituted; an unresolved command yields the fallback with the command id
substituted. -/
theorem descriptionForCommand_keybinding_substitution_witness :
    descriptionForCommand ("chat.action.focus")
      (("The Focus Chat command (") ++ ("\x7b0\x7d") ++ (") focuses the list."))
      (("The ") ++ ("\x7b0\x7d") ++ (" command is not bound.")) kbServiceFocusOnly
      = ("The Focus Chat command (") ++ ("Ctrl+L") ++ (") focuses the list.") ∧
    descriptionForCommand ("unbound.command")
      (("The Focus Chat command (") ++ ("\x7b0\x7d") ++ (") focuses the list."))
      (("The ") ++ ("\x7b0\x7d") ++ (" command is not bound.")) kbServiceFocusOnly
      = ("The ") ++ ("unbound.command") ++ (" command is not bound.") :=
  ⟨(descriptionForCommand_keybinding_substitution kbServiceFocusOnly ("chat.action.focus")
      _ _ _ _ (by decide) (by decide) (by decide) (by decide)).1 ⟨("Ctrl+L")⟩ (by decide),
   (descriptionForCommand_keybinding_substitution kbServiceFocusOnly ("unbound.command")
      _ _ _ _ (by decide) (by decide) (by decide) (by decide)).2 (by decide)⟩

/-- C5: the elements of the static list `ICONS` are pairwise distinct, and
its fixed insertion order enumerates all 63 of them. -/
theorem ICONS_pairwise_distinct : ICONS.Nodup ∧ ICONS.length = 63 := by
  decide

/-- C6: `DEFAULT_ICON` is the designated default of `ICONS`: it is its
first element and occurs in the collection exactly once. -/
theorem DEFAULT_ICON_designated_first :
    ICONS.head? = some DEFAULT_ICON ∧ DEFAULT_ICON ∈ ICONS ∧ ICONS.count DEFAULT_ICON = 1 := by
  decide

/-- C7: the icon list is created once at static initialization and no
operation of the provided code ever changes it: every effect any run or
close callback can perform, and hence every trace of such effects, leaves
the icon list (its length, elements and order) unchanged. -/
theorem ICONS_never_mutated :
    initialSystemState.icons = ICONS ∧
    (∀ (s : SystemState) (e : Effect), (applyEffect s e).icons = s.icons) ∧
    (∀ (s : SystemState) (l : List Effect), (applyTrace s l).icons = s.icons) := by
  refine ⟨rfl, fun s e => by cases e <;> rfl, ?_⟩
  intro s l
  induction l generalizing s with
  | nil => rfl
  | cons e t ih =>
    show (applyTrace (applyEffect s e) t).icons = s.icons
    rw [ih (applyEffect s e)]
    cases e <;> rfl

/-- C8: `getAccessibilityHelpText` is deterministic and depends only on
the type flag and the keybinding lookups: two services with identical
lookup results yield the identical help string. -/
theorem getAccessibilityHelpText_deterministic (kb1 kb2 : KeybindingService) (t : ChatType)
    (h : ∀ id, kb1.lookupKeybinding id = kb2.lookupKeybinding id) :
    getAccessibilityHelpText kb1 t = getAccessibilityHelpText kb2 t := by
  have hk : kb1 = kb2 := by
    cases kb1 with
    | mk f1 =>
      cases kb2 with
      | mk f2 =>
        have hf : f1 = f2 := funext fun id => h id
        rw [hf]
  rw [hk]

/-- C8 witness: two syntactically different services with the same lookups
produce the same help text. -/
theorem getAccessibilityHelpText_deterministic_witness :
    getAccessibilityHelpText kbServiceIfSame ChatType.inlineChat
      = getAccessibilityHelpText kbServiceEmpty ChatType.inlineChat :=
  getAccessibilityHelpText_deterministic kbServiceIfSame kbServiceEmpty ChatType.inlineChat
    (fun id => by simp [kbServiceIfSame, kbServiceEmpty])

/-- C9: for both type values and every keybinding configuration, the help
string is non-empty and its final newline-separated line is the audio-cues
sentence. -/
theorem getAccessibilityHelpText_ends_with_audioCues (kb : KeybindingService) (t : ChatType) :
    getAccessibilityHelpText kb t ≠ ("") ∧
    lastLine (getAccessibilityHelpText kb t) = chatAudioCuesText := by
  have hlast : lastLine (getAccessibilityHelpText kb t) = chatAudioCuesText := by
    unfold getAccessibilityHelpText getAccessibilityHelpTextContent
    simp only [localize_args_nil]
    exact lastLine_joinSep _ _ (by decide)
  refine ⟨?_, hlast⟩
  intro he
  rw [he] at hlast
  rw [show lastLine ("") = ("") from by decide] at hlast
  exact absurd hlast (by decide)

/-- C10: for type inlineChat, when the pair of history keybindings does
not resolve to (truthy) labels, the request-history sentence is omitted
entirely: its template is not among the assembled sentences and the
content consists of exactly the eight other sentences. -/
theorem requestHistory_omitted_when_unresolvable (kb : KeybindingService)
    (h : (jsTruthy (ariaLabelOf kb ("inlineChat.previousFromHistory"))
        && jsTruthy (ariaLabelOf kb ("inlineChat.nextFromHistory"))) = false) :
    inlineChatRequestHistoryText ∉ getAccessibilityHelpTextContent kb ChatType.inlineChat ∧
    (getAccessibilityHelpTextContent kb ChatType.inlineChat).length = 8 := by
  rw [inlineChat_content_of_no_history kb h]
  constructor
  · intro hmem
    simp only [List.mem_cons, List.not_mem_nil, or_false] at hmem
    rcases hmem with h1 | h1 | h1 | h1 | h1 | h1 | h1 | h1
    · exact absurd h1 (by decide)
    · exact access_line_ne_requestHistory _ h1.symm
    · exact absurd h1 (by decide)
    · exact absurd h1 (by decide)
    · split at h1
      · exact diff_line_ne_requestHistory _ h1.symm
      · exact absurd h1 (by decide)
    · exact absurd h1 (by decide)
    · exact absurd h1 (by decide)
    · exact absurd h1 (by decide)
  · rfl

/-- C10 witness: with no keybinding resolved, the request-history sentence
is absent and the inline-chat content has exactly eight sentences. -/
theorem requestHistory_omitted_when_unresolvable_witness :
    inlineChatRequestHistoryText
      ∉ getAccessibilityHelpTextContent kbServiceEmpty ChatType.inlineChat ∧
    (getAccessibilityHelpTextContent kbServiceEmpty ChatType.inlineChat).length = 8 :=
  requestHistory_omitted_when_unresolvable kbServiceEmpty (by decide)

end VSCode
